import Mathlib

/-
Verification of the cache coordination and resumable-download engine of
`alicache/revproxy/revproxy.py`.

The embedding models the on-disk state relevant to a single resource path
`dest` (the final file `dest`, the placeholder `dest + ".tmp"` and the
failure marker `dest + ".404"`), the network as an oracle mapping each
attempt and its optional Range header to a transport result, and the three
core routines `robust_get`, `robust_get_sync` and `clean_cache` as
executable Lean functions.  Real time is modelled in whole seconds (one
wait-loop iteration sleeps one second); backoff pauses are exact rationals.
-/

namespace RevProxy

/-- Abstract file content: a list of bytes (each byte a natural number). -/
abbrev Bytes := List Nat

/-- On-disk state relevant to one resource path `dest`.  A field is `none`
    when the corresponding file does not exist.  `marker` records the
    existence of the zero-byte failure marker `dest + ".404"`. -/
structure FS where
  final : Option Bytes
  tmp : Option Bytes
  marker : Bool
  deriving Repr, DecidableEq

/-- Return value of `robust_get` (revproxy.py lines 36-42). -/
inductive GetRes where
  | CACHE_HIT
  | END_WAIT
  | END_FETCH
  | MUST_WAIT
  deriving Repr, DecidableEq

/-- One HTTP response as observed by `robust_get_sync`: the status code,
    the parsed `Content-Length` header (`none` when the header is absent;
    line 126 parses it with default `-1`), the streamed body delivered as a
    list of chunks by `iter_content`, and `streamError`, which models a
    `RequestException` raised by the streaming iteration after the listed
    chunks were delivered and written. -/
structure HttpResponse where
  status : Nat
  contentLength : Option Int
  chunks : List Bytes
  streamError : Bool
  deriving Repr, DecidableEq

/-- Result of one `requests.get` call (line 124): either a transport-level
    failure raised before any response object exists (`noResponse`, in which
    case line 146 yields status code `-1`), or a response. -/
inductive TransportResult where
  | noResponse
  | response (r : HttpResponse)
  deriving Repr, DecidableEq

/-- The network backend: what `requests.get` yields on attempt `i` when sent
    with the given optional `Range` header `bytes=a-b`. -/
abbrev Net := Nat → Option (Nat × Int) → TransportResult

/-- The Range header computed on lines 120-123: when the expected total size
    `size_final` is already known (not `-1`), request
    `bytes=size_ondisk-size_final`, otherwise send no Range header. -/
def rangeOf (sizeFinal : Int) (fs : FS) : Option (Nat × Int) :=
  if sizeFinal ≠ -1 then some ((fs.tmp.getD []).length, sizeFinal) else none

/-- The bytes actually written by the streaming loop on lines 133-137:
    every non-empty chunk is appended (the `if chunk:` guard skips empty
    chunks). -/
def delivered (r : HttpResponse) : Bytes :=
  (r.chunks.filter (fun c => c ≠ [])).flatten

/-- The expected-total-size variable after a response was received
    (lines 126-128): it is set from the reported `Content-Length` only while
    still unknown (`-1`), and never overwritten once known. -/
def captured (sizeFinal : Int) (r : HttpResponse) : Int :=
  if sizeFinal = -1 then r.contentLength.getD (-1) else sizeFinal

/-- Outcome of the `try:` block body of one download attempt
    (lines 115-142): either the download completed (the temp file was
    renamed onto the final path and the loop returns `True`), or a
    `RequestException` escaped with observable status code `status`
    (`-1` when the exception carries no response, line 146), leaving
    filesystem state `fs` and expected-total state `sizeFinal`. -/
inductive AttemptOutcome where
  | done (fs : FS)
  | failed (fs : FS) (sizeFinal : Int) (status : Int)
  deriving Repr, DecidableEq

/-- One download attempt, the body of the `try:` block on lines 115-142:
    stat the placeholder, compute the Range header, perform the request,
    parse and capture `Content-Length`, raise on HTTP error status
    (`raise_for_status` raises for statuses in `[400, 600)`), stream and
    append the body, raise on a partial read (`size_partial` known and
    different from the bytes received this attempt), else rename the temp
    file onto the final path.  The first component is the Range header the
    request was sent with; the placeholder `dest_tmp` is assumed to exist
    (it was created by `robust_get` before the sync part runs). -/
def doAttempt (net : Net) (i : Nat) (sizeFinal : Int) (fs : FS) :
    Option (Nat × Int) × AttemptOutcome :=
  let rangeHeader := rangeOf sizeFinal fs
  match net i rangeHeader with
  | .noResponse => (rangeHeader, .failed fs sizeFinal (-1))
  | .response r =>
    let sizePart := r.contentLength.getD (-1)
    let sizeFinal1 := if sizeFinal = -1 then sizePart else sizeFinal
    if 400 ≤ r.status ∧ r.status < 600 then
      (rangeHeader, .failed fs sizeFinal1 (r.status : Int))
    else
      let dl := delivered r
      let fs1 : FS := { fs with tmp := some ((fs.tmp.getD []) ++ dl) }
      if r.streamError then (rangeHeader, .failed fs1 sizeFinal1 (-1))
      else if sizePart ≠ (dl.length : Int) ∧ sizePart ≠ -1 then
        (rangeHeader, .failed fs1 sizeFinal1 (-1))
      else
        (rangeHeader, .done { fs1 with final := fs1.tmp, tmp := none })

/-- Backoff pause before attempt `i` for `i ≥ 1` (line 112):
    `0.4 * 1.4 ** (i - 1)` seconds, as an exact rational. -/
def pauseSec (i : Nat) : ℚ := (2 / 5) * (7 / 5) ^ (i - 1)

/-- Everything observable about one run of the retry loop: the returned
    boolean, the filesystem state, the Range headers of the requests made
    (in order, one per attempt), the backoff pauses slept (in order), and
    the number of attempts performed. -/
structure SyncResult where
  success : Bool
  fs : FS
  requests : List (Option (Nat × Int))
  pauses : List ℚ
  attempts : Nat
  deriving Repr, DecidableEq

/-- The retry loop of `robust_get_sync` (lines 110-158), running attempts
    `i, i + 1, ...` while `rem` counts the remaining iterations of
    `range(HTTP_CONN_RETRIES)` (so `rem + i = retries` on every reachable
    call).  `retries` is `CONF["HTTP_CONN_RETRIES"]`; `unlinkFails` says
    whether the best-effort `os.unlink(dest_tmp)` on lines 152-155 raises
    `OSError` (which is caught and ignored).  On an attempt that raises, the
    handler on lines 143-156 gives up permanently exactly when the status
    code is 404 or this was the last attempt, writing the failure marker and
    unlinking the temp file; otherwise the loop continues. -/
def syncLoop (net : Net) (retries : Nat) (unlinkFails : Bool) :
    Nat → Nat → Int → FS → SyncResult
  | 0, _, _, fs => ⟨false, fs, [], [], 0⟩
  | rem + 1, i, sizeFinal, fs =>
    let pauses0 : List ℚ := if 0 < i then [pauseSec i] else []
    match doAttempt net i sizeFinal fs with
    | (req, .done fs1) => ⟨true, fs1, [req], pauses0, 1⟩
    | (req, .failed fs1 sizeFinal1 status) =>
      if status = 404 ∨ i = retries - 1 then
        ⟨false, { fs1 with marker := true, tmp := if unlinkFails = true then fs1.tmp else none },
          [req], pauses0, 1⟩
      else
        let r := syncLoop net retries unlinkFails rem (i + 1) sizeFinal1 fs1
        ⟨r.success, r.fs, req :: r.requests, pauses0 ++ r.pauses, r.attempts + 1⟩

/-- `robust_get_sync(url, dest, dest_tmp)` (lines 101-158): run the retry
    loop from attempt 0 with the expected total size unknown (`-1`). -/
def robust_get_sync (net : Net) (retries : Nat) (unlinkFails : Bool) (fs : FS) : SyncResult :=
  syncLoop net retries unlinkFails retries 0 (-1) fs

/-- Python truthiness of the `wait_timeout` argument as used on lines 80 and
    96: `None` and `0` are falsy, every other number is truthy. -/
def timeoutTruthy : Option Nat → Bool
  | none => false
  | some v => v != 0

/-- The waiting loop of `robust_get` (lines 75-82).  `tmpExists t` says
    whether the placeholder (owned by another caller) still exists `t`
    seconds after the wait began; each iteration sleeps one second, so after
    the sleep at poll `t` the elapsed time is `t + 1` seconds.  The loop
    returns `MUST_WAIT` when the timeout is truthy and the elapsed time
    strictly exceeds it, and `END_WAIT` as soon as the placeholder is gone.
    `fuel` bounds the number of iterations modelled; `none` means the loop
    was still polling after `fuel` iterations. -/
def waitLoop (tmpExists : Nat → Bool) (waitTimeout : Option Nat) :
    Nat → Nat → Option GetRes
  | 0, _ => none
  | fuel + 1, t =>
    if tmpExists t = true then
      let t1 := t + 1
      if timeoutTruthy waitTimeout = true ∧ t1 > waitTimeout.getD 0 then
        some .MUST_WAIT
      else waitLoop tmpExists waitTimeout fuel t1
    else some .END_WAIT

/-- The errno value `errno.EEXIST`. -/
def EEXIST : Nat := 17

/-- Outcome of the `os.makedirs(dest_dir)` call on line 87 as observed by
    the caller: success, or an `OSError` carrying `errno`, together with
    whether `os.path.isdir(dest_dir)` holds when the handler probes it. -/
inductive MakedirsResult where
  | ok
  | err (errno : Nat) (isdirAfter : Bool)
  deriving Repr, DecidableEq

/-- The exception handler on lines 86-90: re-raise the `OSError` when the
    destination is not a directory or the errno is not `EEXIST`; otherwise
    swallow it. -/
def makedirsGuard : MakedirsResult → Except Nat Unit
  | .ok => .ok ()
  | .err e isdir =>
    if isdir = false ∨ e ≠ EEXIST then .error e else .ok ()

/-- Result of one `robust_get` call: a `GetRes` together with the
    filesystem state at the moment the function returns and the Range
    headers of the network requests the call itself performed;
    `raised errno` models an `OSError` propagating out of the directory
    creation; `outOfFuel` means the modelled wait loop ran out of fuel. -/
inductive FetchResult where
  | ok (res : GetRes) (fs : FS) (requests : List (Option (Nat × Int)))
  | raised (errno : Nat)
  | outOfFuel
  deriving Repr, DecidableEq

/-- `robust_get(url, dest, wait_timeout)` (lines 44-99) for a single
    caller.  In order: cached failure marker or cached file short-circuit to
    `CACHE_HIT`; an existing placeholder routes into the waiting loop; else
    the directory tree is created (tolerating `EEXIST` races, lines 86-90),
    an empty placeholder is written, and the synchronous download runs — in
    a worker thread, so with a truthy `wait_timeout` the call returns
    `MUST_WAIT` at once (line 97) while the detached download proceeds
    (its effects are modelled by `robust_get_sync` and, for interleavings,
    by the `Flight` model below); with no timeout the call awaits the
    download and returns `END_FETCH`. -/
def robust_get (net : Net) (retries : Nat) (unlinkFails : Bool)
    (mkres : MakedirsResult) (tmpExists : Nat → Bool) (fuel : Nat)
    (waitTimeout : Option Nat) (fs : FS) : FetchResult :=
  if fs.marker = true then .ok .CACHE_HIT fs []
  else if fs.final.isSome then .ok .CACHE_HIT fs []
  else if fs.tmp.isSome then
    match waitLoop tmpExists waitTimeout fuel 0 with
    | none => .outOfFuel
    | some res => .ok res fs []
  else
    match makedirsGuard mkres with
    | .error e => .raised e
    | .ok _ =>
      let fs1 : FS := { fs with tmp := some [] }
      if timeoutTruthy waitTimeout = true then .ok .MUST_WAIT fs1 []
      else
        let r := robust_get_sync net retries unlinkFails fs1
        .ok .END_FETCH r.fs r.requests

/-- The filesystem state after one `robust_get` call returns (used to state
    that repeated calls on a terminal state leave it unchanged). -/
def fetchFS (net : Net) (retries : Nat) (unlinkFails : Bool)
    (mkres : MakedirsResult) (tmpExists : Nat → Bool) (fuel : Nat)
    (waitTimeout : Option Nat) (fs : FS) : FS :=
  match robust_get net retries unlinkFails mkres tmpExists fuel waitTimeout fs with
  | .ok _ fs1 _ => fs1
  | _ => fs

/-! ### The eviction sweep `clean_cache` (lines 222-258) -/

/-- File-name constants used by the sweep. -/
def tmpSuffix : String := ".tmp"

/-- Suffix of the cached-failure marker files. -/
def markerSuffix : String := ".404"

/-- Name of the cached directory-listing files. -/
def indexName : String := "index.json"

/-- Model of `os.path.basename`: the part of the path after the last
    slash. -/
def slashStr : String := "/"

/-- The part of `s` after the last slash. -/
def basename (s : String) : String := (s.splitOn slashStr).getLastD s

/-- One filesystem entry visited by the sweep's recursive glob, together
    with the behaviour of the per-entry system calls: `statFails` says
    whether `os.stat` raises `OSError` for it, `unlinkFails` whether
    `os.unlink` does.  Times are integer epoch seconds (the code truncates
    age differences with `int(...)`, which is the identity on integer
    times). -/
structure CacheFile where
  name : String
  isDir : Bool
  size : Nat
  atime : Int
  mtime : Int
  statFails : Bool
  unlinkFails : Bool
  deriving Repr, DecidableEq

/-- Accumulated observable outcome of a sweep: bytes retained, bytes freed,
    and the names of the files deleted, in visit order. -/
structure SweepResult where
  sizeUsed : Nat
  sizeSaved : Nat
  removed : List String
  deriving Repr, DecidableEq

/-- The body of the sweep loop for one visited entry (lines 234-256):
    directories and `.tmp` files are skipped; a failing `os.stat` skips the
    entry; `index.json` and `.404` files are due for deletion when their
    modification age strictly exceeds `indexDur`
    (`CACHE_INDEX_DURATION`), every other file when its access age strictly
    exceeds `fileDur` (`CACHE_FILE_DURATION`); a failing `os.unlink` skips
    the entry (the `except OSError` also skips the byte accounting);
    otherwise the entry's size is added to the freed or retained total. -/
def cleanStep (indexDur fileDur now : Int) (acc : SweepResult) (f : CacheFile) : SweepResult :=
  if f.isDir = true ∨ f.name.endsWith tmpSuffix = true then acc
  else if f.statFails = true then acc
  else
    let aAgo := now - f.atime
    let mAgo := now - f.mtime
    let remove : Bool :=
      if basename f.name = indexName ∨ f.name.endsWith markerSuffix = true then
        decide (mAgo > indexDur)
      else decide (aAgo > fileDur)
    if remove = true then
      if f.unlinkFails = true then acc
      else ⟨acc.sizeUsed, acc.sizeSaved + f.size, acc.removed ++ [f.name]⟩
    else ⟨acc.sizeUsed + f.size, acc.sizeSaved, acc.removed⟩

/-- `clean_cache()` (lines 222-258) over the list of entries the glob
    visits, in visit order. -/
def clean_cache (indexDur fileDur now : Int) (files : List CacheFile) : SweepResult :=
  files.foldl (cleanStep indexDur fileDur now) ⟨0, 0, []⟩

/-- Claim-side predicate: the sweep actually considers this entry (it is
    not a directory, not a `.tmp` file, and `os.stat` succeeds on it). -/
def sweepConsidered (f : CacheFile) : Bool :=
  !f.isDir && !(f.name.endsWith tmpSuffix) && !f.statFails

/-- Claim-side predicate: the entry's age makes it due for deletion now —
    modification age strictly above `indexDur` for `index.json` and `.404`
    entries, access age strictly above `fileDur` for every other entry. -/
def sweepDue (indexDur fileDur now : Int) (f : CacheFile) : Bool :=
  if basename f.name = indexName ∨ f.name.endsWith markerSuffix = true then
    decide (now - f.mtime > indexDur)
  else decide (now - f.atime > fileDur)

/-- Claim-side predicate: the sweep deletes this entry (considered, due,
    and `os.unlink` succeeds). -/
def sweepDeletes (indexDur fileDur now : Int) (f : CacheFile) : Bool :=
  sweepConsidered f && sweepDue indexDur fileDur now f && !f.unlinkFails

/-- Claim-side predicate: the sweep retains this entry and counts its bytes
    as used (considered and not due). -/
def sweepKeeps (indexDur fileDur now : Int) (f : CacheFile) : Bool :=
  sweepConsidered f && !(sweepDue indexDur fileDur now f)

/-! ### The `Flight` model: concurrent callers and downloader threads

`robust_get`'s inspect-then-create sequence (lines 63-92) runs in the
single Twisted reactor thread with no `await` point, so distinct callers
never interleave with each other inside it; but `robust_get_sync` runs in a
worker thread (line 95) whose filesystem operations — the atomic rename on
line 140, the marker creation on line 150 and the unlink on line 153 — can
interleave with the reactor between any two of the caller's `isfile` probes
(lines 64, 69, 75), and callers in separate processes sharing the cache can
interleave arbitrarily.  The model therefore offers two caller
granularities: `callerProbeStep` (each probe its own step, faithful to
thread/process interleaving) and `callerBlockStep` (the whole blocking
section atomic, faithful to callers serialized by one reactor).  Disk flags
abstract file existence; a downloader's intermediate appends do not change
existence flags and are omitted. -/

namespace Flight

/-- Existence flags of the three files coordinating one resource. -/
structure Disk where
  final : Bool
  tmp : Bool
  marker : Bool
  deriving Repr, DecidableEq

/-- Progress of one spawned downloader (`robust_get_sync`): `running` until
    its terminal filesystem transition; a failing run first writes the
    failure marker (line 150, state `wroteMarker`) and then unlinks the
    placeholder (line 153); a successful run renames the placeholder onto
    the final path in one atomic step (line 140). -/
inductive DlState where
  | running
  | wroteMarker
  | finished
  deriving Repr, DecidableEq

/-- Control state of one `robust_get` caller.  The `after404Probe` and
    `afterFinalProbe` states exist only at probe granularity. -/
inductive CallerPC where
  | start
  | after404Probe
  | afterFinalProbe
  | waiting
  | gotHit
  | spawned
  | endedWait
  deriving Repr, DecidableEq

/-- The whole system: the shared disk flags, each caller's control state,
    and the spawned downloaders in spawn order. -/
structure Sys where
  disk : Disk
  callers : List CallerPC
  dls : List DlState
  deriving Repr, DecidableEq

/-- A scheduling decision: which caller or which downloader runs next. -/
inductive Move where
  | caller (idx : Nat)
  | dl (idx : Nat)
  deriving Repr, DecidableEq

/-- Caller step at probe granularity: each `isfile` check of lines 64, 69
    and 75 is a separate step, between which downloader threads and other
    processes may run.  The returned boolean says whether this step created
    the placeholder and spawned a downloader (lines 85-95; directory
    creation is assumed to succeed). -/
def callerProbeStep (d : Disk) (pc : CallerPC) : CallerPC × Disk × Bool :=
  match pc with
  | .start => if d.marker then (.gotHit, d, false) else (.after404Probe, d, false)
  | .after404Probe => if d.final then (.gotHit, d, false) else (.afterFinalProbe, d, false)
  | .afterFinalProbe =>
    if d.tmp then (.waiting, d, false)
    else (.spawned, { d with tmp := true }, true)
  | .waiting => if d.tmp then (.waiting, d, false) else (.endedWait, d, false)
  | pc => (pc, d, false)

/-- Caller step at block granularity: the whole blocking section of
    `robust_get` (lines 63-97) runs as one atomic step, as it does for
    callers multiplexed on a single reactor (the section contains no await
    point — the comment on line 84 relies on exactly this). -/
def callerBlockStep (d : Disk) (pc : CallerPC) : CallerPC × Disk × Bool :=
  match pc with
  | .start =>
    if d.marker then (.gotHit, d, false)
    else if d.final then (.gotHit, d, false)
    else if d.tmp then (.waiting, d, false)
    else (.spawned, { d with tmp := true }, true)
  | .waiting => if d.tmp then (.waiting, d, false) else (.endedWait, d, false)
  | pc => (pc, d, false)

/-- One downloader step: a running downloader whose fate (per `fails`) is
    permanent failure writes the marker; one whose fate is success renames
    the placeholder onto the final path; a downloader that wrote the marker
    unlinks the placeholder. -/
def dlStep (fails : Bool) (d : Disk) (st : DlState) : DlState × Disk :=
  match st with
  | .running =>
    if fails then (.wroteMarker, { d with marker := true })
    else (.finished, { d with final := true, tmp := false })
  | .wroteMarker => (.finished, { d with tmp := false })
  | .finished => (.finished, d)

/-- Execute one scheduling decision; decisions naming a missing process are
    no-ops.  `dlFails j` is the fate of the `j`-th spawned downloader. -/
def stepWith (cstep : Disk → CallerPC → CallerPC × Disk × Bool)
    (dlFails : Nat → Bool) (s : Sys) : Move → Sys
  | .caller i =>
    match s.callers[i]? with
    | none => s
    | some pc =>
      let r := cstep s.disk pc
      { disk := r.2.1,
        callers := s.callers.set i r.1,
        dls := if r.2.2 then s.dls ++ [DlState.running] else s.dls }
  | .dl j =>
    match s.dls[j]? with
    | none => s
    | some st =>
      let r := dlStep (dlFails j) s.disk st
      { disk := r.2, callers := s.callers, dls := s.dls.set j r.1 }

/-- Run a whole schedule. -/
def runWith (cstep : Disk → CallerPC → CallerPC × Disk × Bool)
    (dlFails : Nat → Bool) (s : Sys) (ms : List Move) : Sys :=
  ms.foldl (stepWith cstep dlFails) s

/-- Run a schedule at probe granularity (threads / separate processes). -/
def runProbe (dlFails : Nat → Bool) (s : Sys) (ms : List Move) : Sys :=
  runWith callerProbeStep dlFails s ms

/-- Run a schedule at block granularity (single cooperative reactor). -/
def runBlock (dlFails : Nat → Bool) (s : Sys) (ms : List Move) : Sys :=
  runWith callerBlockStep dlFails s ms

/-- Initial system: the resource is absent and `n` concurrent `robust_get`
    calls for it are pending. -/
def initSys (n : Nat) : Sys :=
  ⟨⟨false, false, false⟩, List.replicate n .start, []⟩

/-- The schedule exhibiting a duplicated download at probe granularity:
    caller 0 inspects and spawns; caller 1 probes the marker and the final
    file while the download is still in flight; the downloader then
    completes (atomic rename); caller 1's remaining probe finds no
    placeholder and spawns a second download. -/
def raceMoves : List Move :=
  [.caller 0, .caller 0, .caller 0, .caller 1, .caller 1, .dl 0, .caller 1]

/-- The safety invariant of the block-granularity system: at most one
    downloader was ever spawned; while none was spawned the disk is empty
    and no caller has run; once one was spawned, at least one coordination
    file exists (placeholder, final file or marker), which is exactly what
    routes every later caller away from spawning; and a downloader that has
    written the marker certainly left it on disk. -/
def Inv (s : Sys) : Prop :=
  s.dls.length ≤ 1 ∧
  (s.dls = [] → s.disk = ⟨false, false, false⟩ ∧ ∀ pc ∈ s.callers, pc = CallerPC.start) ∧
  (s.dls ≠ [] → (s.disk.final = true ∨ s.disk.tmp = true ∨ s.disk.marker = true)) ∧
  (∀ st ∈ s.dls, st = DlState.wroteMarker → s.disk.marker = true)

end Flight

/-! ### Auxiliary definitions used in theorem statements and witnesses -/

/-- The status code `robust_get_sync` observes when an attempt receiving
    this transport result fails (`none` when the attempt succeeds):
    a missing response or a streaming/partial-read failure yields `-1`, an
    HTTP error status in `[400, 600)` yields that status. -/
def failStatus : TransportResult → Option Int
  | .noResponse => some (-1)
  | .response r =>
    if 400 ≤ r.status ∧ r.status < 600 then some (r.status : Int)
    else if r.streamError = true then some (-1)
    else if r.contentLength.getD (-1) ≠ ((delivered r).length : Int) ∧
        r.contentLength.getD (-1) ≠ -1 then some (-1)
    else none

/-- Where the bytes of an attempt ended up: in the final file after a
    successful rename, in the temp file after a failed attempt. -/
def attemptPost : AttemptOutcome → Option Bytes
  | .done fs1 => fs1.final
  | .failed fs1 _ _ => fs1.tmp

/-- A backend that answers every request with HTTP 404. -/
def net404 : Net := fun _ _ => .response ⟨404, some 0, [], false⟩

/-- A backend that serves a complete 3-byte body with matching
    `Content-Length`. -/
def netOK : Net := fun _ _ => .response ⟨200, some 3, [[1, 2, 3]], false⟩

/-- A backend that announces 5 bytes but delivers only 3 (partial read on
    every attempt). -/
def netMis : Net := fun _ _ => .response ⟨200, some 5, [[1, 2, 3]], false⟩

/-- A backend whose first attempt fails at transport level with no
    response, whose second attempt reports `Content-Length: 5` but delivers
    only 3 bytes, and which then stops responding. -/
def net3 : Net := fun i _ =>
  match i with
  | 0 => .noResponse
  | 1 => .response ⟨200, some 5, [[7, 7, 7]], false⟩
  | _ => .noResponse

/-- A placeholder that disappears at the third poll. -/
def tmpEx3 : Nat → Bool := fun t => decide (t < 3)

/-- A placeholder that disappears at the fifth poll. -/
def tmpEx5 : Nat → Bool := fun t => decide (t < 5)

/-! ### Theorems -/

/-- C1: whenever the failure marker or the final file exists — even with a
    leftover placeholder also present — `robust_get` returns `CACHE_HIT`
    immediately, with the filesystem unchanged and no network request made
    (the marker and final-file checks precede the placeholder check, so
    terminal states win over `InProgress`); and since the state is returned
    unchanged, any number of repeated calls leave it fixed, so they all
    return `CACHE_HIT` until something else (eviction) changes the state. -/
theorem C1_terminal_cache_hit (net : Net) (retries : Nat) (unlinkFails : Bool)
    (mkres : MakedirsResult) (tmpExists : Nat → Bool) (fuel : Nat)
    (waitTimeout : Option Nat) (fs : FS)
    (h : fs.marker = true ∨ fs.final.isSome = true) :
    robust_get net retries unlinkFails mkres tmpExists fuel waitTimeout fs =
      .ok .CACHE_HIT fs [] ∧
    ∀ n : Nat,
      (fetchFS net retries unlinkFails mkres tmpExists fuel waitTimeout)^[n] fs = fs := by
  have h1 : robust_get net retries unlinkFails mkres tmpExists fuel waitTimeout fs =
      .ok .CACHE_HIT fs [] := by
    rcases h with h | h
    · simp [robust_get, h]
    · by_cases hm : fs.marker = true
      · simp [robust_get, hm]
      · simp [robust_get, hm, h]
  refine ⟨h1, fun n => Function.iterate_fixed ?_ n⟩
  unfold fetchFS
  rw [h1]

/-- Witness for C1 at a concrete state: marker cached and a leftover
    placeholder present. -/
theorem C1_terminal_cache_hit_w :
    robust_get (fun _ _ => .noResponse) 20 false .ok (fun _ => true) 5 none
      ⟨none, some [1], true⟩ = .ok .CACHE_HIT ⟨none, some [1], true⟩ [] :=
  (C1_terminal_cache_hit _ _ _ _ _ _ _ _ (Or.inl rfl)).1

/-- C10: with `HTTP_CONN_RETRIES = 0` the loop body never runs:
    `robust_get_sync` returns `False` having made no network request,
    written no failure marker and deleted nothing — the filesystem is
    returned exactly as given, for every backend. -/
theorem C10_zero_retries (net : Net) (unlinkFails : Bool) (fs : FS) :
    robust_get_sync net 0 unlinkFails fs = ⟨false, fs, [], [], 0⟩ := rfl

/-- C9 counterexample: an `OSError` with errno 13 (`EACCES`) raised while
    the target directory does exist (`isdirAfter = true`) is re-raised by
    the handler on lines 88-90, because it tolerates an error only when the
    errno is `EEXIST` — contradicting the claim that any directory-creation
    error is tolerated whenever the target directory already exists. -/
theorem C9_counterexample :
    makedirsGuard (.err 13 true) = Except.error 13 ∧ (13 : Nat) ≠ EEXIST :=
  ⟨rfl, by decide⟩

/-- C9 amended: a directory-creation error is tolerated exactly when the
    target exists as a directory AND the error's errno is `EEXIST`; an
    error with any other errno propagates even if the directory exists, as
    does any error when the target is not a directory. -/
theorem C9_amended_tolerance :
    makedirsGuard .ok = Except.ok () ∧
    ∀ (e : Nat) (d : Bool),
      makedirsGuard (.err e d) = Except.ok () ↔ (d = true ∧ e = EEXIST) := by
  refine ⟨rfl, fun e d => ?_⟩
  simp only [makedirsGuard]
  by_cases hd : d = false
  · subst hd
    rw [if_pos (Or.inl rfl)]
    constructor
    · intro hx; exact absurd hx (by simp)
    · rintro ⟨hx, -⟩; cases hx
  · have hd1 : d = true := by revert hd; cases d <;> simp
    subst hd1
    by_cases he : e = EEXIST
    · subst he; simp
    · rw [if_pos (Or.inr he)]
      constructor
      · intro hx; exact absurd hx (by simp)
      · rintro ⟨-, hx⟩; exact absurd hx he

/-- Witness for C9: the tolerated case (directory exists, errno EEXIST). -/
theorem C9_amended_tolerance_w :
    makedirsGuard (.err 17 true) = Except.ok () :=
  (C9_amended_tolerance.2 17 true).mpr ⟨rfl, rfl⟩

/-- C5 counterexample: with a supplied deadline of 0 seconds and a
    placeholder that outlives the deadline (it is still present at polls 0,
    1 and 2, disappearing only at poll 3), the wait loop returns `END_WAIT`
    instead of the claim's `MUST_WAIT`: the guard `if wait_timeout and ...`
    on line 80 treats a `wait_timeout` of 0 as if no deadline had been
    supplied, so the loop keeps polling until the placeholder disappears. -/
theorem C5_counterexample :
    tmpEx3 0 = true ∧ tmpEx3 1 = true ∧ tmpEx3 2 = true ∧ tmpEx3 3 = false ∧
    waitLoop tmpEx3 (some 0) 10 0 = some .END_WAIT := by decide

/-- Helper: while the placeholder persists through a truthy deadline `d`,
    the wait loop reports `MUST_WAIT` right after the poll at time `d`. -/
theorem waitLoop_must_wait (tmpExists : Nat → Bool) (d : Nat) (hd : 0 < d) :
    ∀ (fuel t : Nat), t ≤ d → (∀ u, u ≤ d → tmpExists u = true) → d - t < fuel →
      waitLoop tmpExists (some d) fuel t = some .MUST_WAIT := by
  intro fuel
  induction fuel with
  | zero => intro t ht hall hf; omega
  | succ fuel ih =>
    intro t ht hall hf
    have htt : timeoutTruthy (some d) = true := by
      simp [timeoutTruthy]; omega
    simp only [waitLoop, Option.getD_some]
    rw [if_pos (hall t ht)]
    by_cases hte : t = d
    · subst hte
      rw [if_pos ⟨htt, by omega⟩]
    · rw [if_neg (by rintro ⟨-, hgt⟩; omega)]
      exact ih (t + 1) (by omega) hall (by omega)

/-- Helper: if the placeholder disappears at poll `k` and the deadline
    never fires strictly before that, the wait loop reports `END_WAIT`. -/
theorem waitLoop_end_wait (tmpExists : Nat → Bool) (waitTimeout : Option Nat) (k : Nat)
    (hall : ∀ u, u < k → tmpExists u = true) (hgone : tmpExists k = false)
    (hno : ∀ u, u < k →
      ¬(timeoutTruthy waitTimeout = true ∧ u + 1 > waitTimeout.getD 0)) :
    ∀ (fuel t : Nat), t ≤ k → k - t < fuel →
      waitLoop tmpExists waitTimeout fuel t = some .END_WAIT := by
  intro fuel
  induction fuel with
  | zero => intro t ht hf; omega
  | succ fuel ih =>
    intro t ht hf
    by_cases hte : t = k
    · subst hte
      simp only [waitLoop]
      rw [if_neg (by simp [hgone])]
    · have hlt : t < k := by omega
      simp only [waitLoop]
      rw [if_pos (hall t hlt), if_neg (hno t hlt)]
      exact ih (t + 1) (by omega) (by omega)

/-- C5 amended: the wait loop polls the placeholder once per second; for
    every supplied POSITIVE deadline it returns `MUST_WAIT` when the
    deadline elapses while the placeholder persists, and `END_WAIT` when
    the placeholder disappears no later than the deadline; with no deadline
    it returns `END_WAIT` when the placeholder disappears (which does not
    imply the download succeeded — the state is not inspected).  A supplied
    deadline of 0 is treated as if no deadline was given (Python
    truthiness, line 80). -/
theorem C5_amended_wait (tmpExists : Nat → Bool) (d k fuel : Nat) :
    (0 < d → (∀ u, u ≤ d → tmpExists u = true) → d < fuel →
      waitLoop tmpExists (some d) fuel 0 = some .MUST_WAIT) ∧
    (0 < d → k ≤ d → (∀ u, u < k → tmpExists u = true) → tmpExists k = false →
      k < fuel → waitLoop tmpExists (some d) fuel 0 = some .END_WAIT) ∧
    ((∀ u, u < k → tmpExists u = true) → tmpExists k = false → k < fuel →
      waitLoop tmpExists none fuel 0 = some .END_WAIT) := by
  refine ⟨fun hd hall hf =>
      waitLoop_must_wait tmpExists d hd fuel 0 (by omega) hall (by omega),
    fun hd hkd hall hgone hf =>
      waitLoop_end_wait tmpExists (some d) k hall hgone ?_ fuel 0 (by omega) (by omega),
    fun hall hgone hf =>
      waitLoop_end_wait tmpExists none k hall hgone ?_ fuel 0 (by omega) (by omega)⟩
  · rintro u hu ⟨-, hgt⟩
    simp only [Option.getD_some] at hgt
    omega
  · rintro u hu ⟨htt, -⟩
    simp [timeoutTruthy] at htt

/-- Witness for C5 amended: a placeholder disappearing at poll 5, against a
    deadline of 2 (times out), a deadline of 7 (ends), and no deadline. -/
theorem C5_amended_wait_w :
    waitLoop tmpEx5 (some 2) 10 0 = some .MUST_WAIT ∧
    waitLoop tmpEx5 (some 7) 10 0 = some .END_WAIT ∧
    waitLoop tmpEx5 none 10 0 = some .END_WAIT := by
  refine ⟨(C5_amended_wait tmpEx5 2 5 10).1 (by omega)
      (fun u hu => decide_eq_true (by omega)) (by omega),
    (C5_amended_wait tmpEx5 7 5 10).2.1 (by omega) (by omega)
      (fun u hu => decide_eq_true (by omega)) (by decide) (by omega),
    (C5_amended_wait tmpEx5 7 5 10).2.2
      (fun u hu => decide_eq_true (by omega)) (by decide) (by omega)⟩

/-- C2: for any attempt of the download loop that ends in a
    transport/HTTP error with observable status `status`: when
    `status = 404` or the attempt is the last allowed one
    (`i = retries - 1`), the loop writes the failure marker, best-effort
    unlinks the temp file (the return value is `False` whether or not the
    unlink raises; the temp file is gone exactly when the unlink succeeds)
    and performs no further attempt (`attempts = 1` from this point); for
    any other erroring attempt the loop continues with the next attempt,
    keeping the filesystem produced by this attempt (any bytes already
    appended).  A 404 on the first attempt is the `i = 0` instance of the
    first branch: one single attempt, then the permanent-failure path. -/
theorem C2_permanent_vs_retry (net : Net) (unlinkFails : Bool) (retries rem i : Nat)
    (sizeFinal : Int) (fs fs1 : FS) (sizeFinal1 status : Int)
    (req : Option (Nat × Int)) (_hre : rem + 1 + i = retries)
    (hdo : doAttempt net i sizeFinal fs = (req, .failed fs1 sizeFinal1 status)) :
    ((status = 404 ∨ i = retries - 1) →
      syncLoop net retries unlinkFails (rem + 1) i sizeFinal fs =
        ⟨false,
         { fs1 with marker := true, tmp := if unlinkFails = true then fs1.tmp else none },
         [req], if 0 < i then [pauseSec i] else [], 1⟩) ∧
    (status ≠ 404 → i ≠ retries - 1 →
      syncLoop net retries unlinkFails (rem + 1) i sizeFinal fs =
        { success := (syncLoop net retries unlinkFails rem (i + 1) sizeFinal1 fs1).success,
          fs := (syncLoop net retries unlinkFails rem (i + 1) sizeFinal1 fs1).fs,
          requests :=
            req :: (syncLoop net retries unlinkFails rem (i + 1) sizeFinal1 fs1).requests,
          pauses := (if 0 < i then [pauseSec i] else []) ++
            (syncLoop net retries unlinkFails rem (i + 1) sizeFinal1 fs1).pauses,
          attempts :=
            (syncLoop net retries unlinkFails rem (i + 1) sizeFinal1 fs1).attempts + 1 }) := by
  constructor
  · intro h
    simp only [syncLoop, hdo]
    rw [if_pos h]
  · intro h1 h2
    simp only [syncLoop, hdo]
    rw [if_neg (by rintro (h | h); exact h1 h; exact h2 h)]

/-- Witness for C2: a backend answering 404 terminates on the very first
    attempt with the failure marker written, the temp file removed and no
    retry (one attempt out of 20 allowed). -/
theorem C2_permanent_vs_retry_w :
    syncLoop net404 20 false 20 0 (-1) ⟨none, some [], false⟩ =
      ⟨false, ⟨none, none, true⟩, [none], [], 1⟩ := by
  have h := (C2_permanent_vs_retry net404 false 20 19 0 (-1) ⟨none, some [], false⟩
      ⟨none, some [], false⟩ 0 404 none (by decide) (by decide)).1 (Or.inl rfl)
  exact h

/-- Helper: the Range header an attempt is sent with is always the one
    computed on lines 120-123 from the current expected-total state and the
    on-disk size. -/
theorem doAttempt_fst (net : Net) (i : Nat) (sizeFinal : Int) (fs : FS) :
    (doAttempt net i sizeFinal fs).1 = rangeOf sizeFinal fs := by
  rcases hnet : net i (rangeOf sizeFinal fs) with - | r
  · simp [doAttempt, hnet]
  · simp only [doAttempt, hnet]
    split_ifs <;> rfl

/-- C3 counterexample: against `net3` the first attempt gets no response,
    so nothing is captured then; the second attempt's response reports
    `Content-Length: 5` (delivering only 3 bytes, hence failing), and it is
    from THIS second response that the expected total 5 is captured — the
    third and fourth attempts send ranged requests `bytes=3-5`.  Under the
    claim ("captured on the first attempt only") the total would have
    remained unknown and every request would have been un-ranged. -/
theorem C3_counterexample :
    net3 0 none = .noResponse ∧
    net3 1 none = .response ⟨200, some 5, [[7, 7, 7]], false⟩ ∧
    (robust_get_sync net3 4 false ⟨none, some [], false⟩).requests =
      [none, none, some (3, 5), some (3, 5)] :=
  ⟨rfl, rfl, by decide⟩

/-- C3 amended: on every attempt, the request carries a Range header
    `bytes=size_on_disk-expected_total` exactly when the expected total is
    already known (otherwise a full request is sent); an attempt that gets
    no response changes nothing; on a response the retained expected total
    becomes the server-reported `Content-Length` if it was still unknown
    and is never overwritten once known (so capture happens on the first
    attempt that actually receives a response while the total is unknown,
    not necessarily on the first attempt overall); and every received byte
    of a non-HTTP-error response is appended after the bytes already on
    disk (ending up in the temp file on a failed attempt, and in the final
    file on the successful one). -/
theorem C3_amended_range_capture (net : Net) (i : Nat) (sizeFinal : Int) (fs : FS) :
    ((doAttempt net i sizeFinal fs).1 =
      if sizeFinal = -1 then none else some ((fs.tmp.getD []).length, sizeFinal)) ∧
    (net i (rangeOf sizeFinal fs) = .noResponse →
      doAttempt net i sizeFinal fs = (rangeOf sizeFinal fs, .failed fs sizeFinal (-1))) ∧
    (∀ r fs1 sizeFinal1 status, net i (rangeOf sizeFinal fs) = .response r →
      (doAttempt net i sizeFinal fs).2 = .failed fs1 sizeFinal1 status →
      sizeFinal1 = captured sizeFinal r) ∧
    (∀ r, net i (rangeOf sizeFinal fs) = .response r →
      ¬(400 ≤ r.status ∧ r.status < 600) →
      attemptPost (doAttempt net i sizeFinal fs).2 =
        some ((fs.tmp.getD []) ++ delivered r)) := by
  refine ⟨?_, ?_, ?_, ?_⟩
  · rw [doAttempt_fst]
    unfold rangeOf
    by_cases h : sizeFinal = -1 <;> simp [h]
  · intro hnet
    simp [doAttempt, hnet]
  · intro r fs1 sizeFinal1 status hnet hfail
    simp only [doAttempt, hnet] at hfail
    unfold captured
    by_cases hA : 400 ≤ r.status ∧ r.status < 600
    · rw [if_pos hA] at hfail
      dsimp only at hfail
      injection hfail with e1 e2 e3
      exact e2.symm
    · rw [if_neg hA] at hfail
      by_cases hB : r.streamError = true
      · rw [if_pos hB] at hfail
        dsimp only at hfail
        injection hfail with e1 e2 e3
        exact e2.symm
      · rw [if_neg hB] at hfail
        by_cases hC : r.contentLength.getD (-1) ≠ ((delivered r).length : Int) ∧
            r.contentLength.getD (-1) ≠ -1
        · rw [if_pos hC] at hfail
          dsimp only at hfail
          injection hfail with e1 e2 e3
          exact e2.symm
        · rw [if_neg hC] at hfail
          dsimp only at hfail
          cases hfail
  · intro r hnet hst
    simp only [doAttempt, hnet]
    rw [if_neg hst]
    split_ifs <;> rfl

/-- Witness for C3 amended: against `netMis` (announces 5 bytes, delivers
    3) the captured total is 5 and the delivered bytes are appended to the
    (initially empty) temp file. -/
theorem C3_amended_range_capture_w :
    (5 : Int) = captured (-1) ⟨200, some 5, [[1, 2, 3]], false⟩ ∧
    attemptPost (doAttempt netMis 0 (-1) ⟨none, some [], false⟩).2 = some [1, 2, 3] := by
  constructor
  · exact (C3_amended_range_capture netMis 0 (-1) ⟨none, some [], false⟩).2.2.1
      ⟨200, some 5, [[1, 2, 3]], false⟩ ⟨none, some [1, 2, 3], false⟩ 5 (-1)
      rfl (by decide)
  · have h := (C3_amended_range_capture netMis 0 (-1) ⟨none, some [], false⟩).2.2.2
      ⟨200, some 5, [[1, 2, 3]], false⟩ rfl (by decide)
    exact h

/-- C4: for an attempt whose response is not an HTTP error and whose stream
    completes: if the server specified a definite content length for this
    attempt and the bytes received differ from it, the attempt fails
    (status `-1`) and — when it is not the last attempt — the loop retries
    with the appended bytes kept in the temp file, so the next attempt
    resumes from the new on-disk size; if the received bytes match the
    announced length (or no length was announced), the temp file is
    atomically renamed onto the final path and the loop returns `True`
    immediately. -/
theorem C4_validate_rename (net : Net) (unlinkFails : Bool) (retries rem i : Nat)
    (sizeFinal : Int) (fs : FS) (r : HttpResponse)
    (hresp : net i (rangeOf sizeFinal fs) = .response r)
    (hst : ¬(400 ≤ r.status ∧ r.status < 600)) (hse : r.streamError = false) :
    (r.contentLength.getD (-1) ≠ ((delivered r).length : Int) →
      r.contentLength.getD (-1) ≠ -1 →
      i ≠ retries - 1 →
      syncLoop net retries unlinkFails (rem + 1) i sizeFinal fs =
        { success := (syncLoop net retries unlinkFails rem (i + 1) (captured sizeFinal r)
            { fs with tmp := some ((fs.tmp.getD []) ++ delivered r) }).success,
          fs := (syncLoop net retries unlinkFails rem (i + 1) (captured sizeFinal r)
            { fs with tmp := some ((fs.tmp.getD []) ++ delivered r) }).fs,
          requests := rangeOf sizeFinal fs ::
            (syncLoop net retries unlinkFails rem (i + 1) (captured sizeFinal r)
              { fs with tmp := some ((fs.tmp.getD []) ++ delivered r) }).requests,
          pauses := (if 0 < i then [pauseSec i] else []) ++
            (syncLoop net retries unlinkFails rem (i + 1) (captured sizeFinal r)
              { fs with tmp := some ((fs.tmp.getD []) ++ delivered r) }).pauses,
          attempts := (syncLoop net retries unlinkFails rem (i + 1) (captured sizeFinal r)
            { fs with tmp := some ((fs.tmp.getD []) ++ delivered r) }).attempts + 1 }) ∧
    (r.contentLength.getD (-1) = ((delivered r).length : Int) ∨
      r.contentLength.getD (-1) = -1 →
      syncLoop net retries unlinkFails (rem + 1) i sizeFinal fs =
        ⟨true, ⟨some ((fs.tmp.getD []) ++ delivered r), none, fs.marker⟩,
         [rangeOf sizeFinal fs], if 0 < i then [pauseSec i] else [], 1⟩) := by
  constructor
  · intro hm1 hm2 hlast
    have hdo : doAttempt net i sizeFinal fs =
        (rangeOf sizeFinal fs,
         .failed { fs with tmp := some ((fs.tmp.getD []) ++ delivered r) }
           (captured sizeFinal r) (-1)) := by
      simp only [doAttempt, hresp]
      rw [if_neg hst, if_neg (by simp [hse]), if_pos ⟨hm1, hm2⟩]
      rfl
    simp only [syncLoop, hdo]
    rw [if_neg (by rintro (h | h); exacts [absurd h (by decide), hlast h])]
  · intro hok
    have hdo : doAttempt net i sizeFinal fs =
        (rangeOf sizeFinal fs,
         .done ⟨some ((fs.tmp.getD []) ++ delivered r), none, fs.marker⟩) := by
      simp only [doAttempt, hresp]
      rw [if_neg hst, if_neg (by simp [hse]),
        if_neg (by rintro ⟨hA, hB⟩; rcases hok with h | h; exacts [hA h, hB h])]
    simp only [syncLoop, hdo]

/-- Witness for C4: a complete 3-byte body with matching length is renamed
    onto the final path on the first attempt and the loop returns
    `True`. -/
theorem C4_validate_rename_w :
    syncLoop netOK 20 false 20 0 (-1) ⟨none, some [], false⟩ =
      ⟨true, ⟨some [1, 2, 3], none, false⟩, [none], [], 1⟩ := by
  have h := (C4_validate_rename netOK false 20 19 0 (-1) ⟨none, some [], false⟩
      ⟨200, some 3, [[1, 2, 3]], false⟩ rfl (by decide) rfl).2 (Or.inl (by decide))
  exact h

/-- Helper: when the transport result of an attempt makes it fail with
    status `s` (per `failStatus`), `doAttempt` returns that failure, and the
    attempt changes neither the final file nor the marker. -/
theorem doAttempt_failed_of_failStatus (net : Net) (i : Nat) (sizeFinal : Int) (fs : FS)
    (s : Int) (h : failStatus (net i (rangeOf sizeFinal fs)) = some s) :
    ∃ fs1 sizeFinal1,
      doAttempt net i sizeFinal fs = (rangeOf sizeFinal fs, .failed fs1 sizeFinal1 s) ∧
      fs1.final = fs.final ∧ fs1.marker = fs.marker := by
  rcases hnet : net i (rangeOf sizeFinal fs) with - | r
  · rw [hnet] at h
    simp only [failStatus, Option.some.injEq] at h
    subst h
    exact ⟨fs, sizeFinal, by simp [doAttempt, hnet], rfl, rfl⟩
  · rw [hnet] at h
    simp only [failStatus] at h
    by_cases hA : 400 ≤ r.status ∧ r.status < 600
    · rw [if_pos hA] at h
      simp only [Option.some.injEq] at h
      subst h
      refine ⟨fs, if sizeFinal = -1 then r.contentLength.getD (-1) else sizeFinal,
        ?_, rfl, rfl⟩
      simp only [doAttempt, hnet]
      rw [if_pos hA]
    · rw [if_neg hA] at h
      by_cases hB : r.streamError = true
      · rw [if_pos hB] at h
        simp only [Option.some.injEq] at h
        subst h
        refine ⟨{ fs with tmp := some ((fs.tmp.getD []) ++ delivered r) },
          if sizeFinal = -1 then r.contentLength.getD (-1) else sizeFinal, ?_, rfl, rfl⟩
        simp only [doAttempt, hnet]
        rw [if_neg hA, if_pos hB]
      · rw [if_neg hB] at h
        by_cases hC : r.contentLength.getD (-1) ≠ ((delivered r).length : Int) ∧
            r.contentLength.getD (-1) ≠ -1
        · rw [if_pos hC] at h
          simp only [Option.some.injEq] at h
          subst h
          refine ⟨{ fs with tmp := some ((fs.tmp.getD []) ++ delivered r) },
            if sizeFinal = -1 then r.contentLength.getD (-1) else sizeFinal, ?_, rfl, rfl⟩
          simp only [doAttempt, hnet]
          rw [if_neg hA, if_neg hB, if_pos hC]
        · rw [if_neg hC] at h
          cases h

/-- Helper: against a backend on which every attempt fails with a non-404
    status, the retry loop started at attempt `i ≥ 1` with `rem` remaining
    iterations performs exactly `rem` attempts, pausing
    `0.4 * 1.4 ** (j - 1)` seconds before each attempt `j` in
    `[i, i + rem)`, then gives up with the marker written and the temp file
    removed. -/
theorem syncLoop_all_fail (net : Net) (retries : Nat)
    (hnet : ∀ j rh, ∃ s, failStatus (net j rh) = some s ∧ s ≠ 404) :
    ∀ (rem : Nat), ∀ (i : Nat) (sizeFinal : Int) (fs : FS),
      0 < rem → rem + i = retries → 0 < i →
      (syncLoop net retries false rem i sizeFinal fs).success = false ∧
      (syncLoop net retries false rem i sizeFinal fs).attempts = rem ∧
      (syncLoop net retries false rem i sizeFinal fs).pauses =
        (List.range' i rem).map pauseSec ∧
      (syncLoop net retries false rem i sizeFinal fs).fs.final = fs.final ∧
      (syncLoop net retries false rem i sizeFinal fs).fs.tmp = none ∧
      (syncLoop net retries false rem i sizeFinal fs).fs.marker = true := by
  intro rem
  induction rem with
  | zero => intro i sizeFinal fs hpos _ _; omega
  | succ rem ih =>
    intro i sizeFinal fs hpos hsum hi
    obtain ⟨s, hs, h404⟩ := hnet i (rangeOf sizeFinal fs)
    obtain ⟨fs1, sf1, hdo, hfin, hmar⟩ := doAttempt_failed_of_failStatus net i sizeFinal fs s hs
    by_cases hlast : rem = 0
    · subst hlast
      have hieq : i = retries - 1 := by omega
      simp only [syncLoop, hdo]
      rw [if_pos (Or.inr hieq)]
      refine ⟨rfl, rfl, ?_, ?_, rfl, rfl⟩
      · rw [if_pos hi]
        rfl
      · exact hfin
    · have hne2 : ¬(s = 404 ∨ i = retries - 1) := by
        rintro (h | h); exacts [h404 h, by omega]
      simp only [syncLoop, hdo]
      rw [if_neg hne2]
      obtain ⟨ih1, ih2, ih3, ih4, ih5, ih6⟩ := ih (i + 1) sf1 fs1 (by omega) (by omega) (by omega)
      refine ⟨ih1, ?_, ?_, ?_, ih5, ih6⟩
      · show (syncLoop net retries false rem (i + 1) sf1 fs1).attempts + 1 = rem + 1
        rw [ih2]
      · show (if 0 < i then [pauseSec i] else []) ++
            (syncLoop net retries false rem (i + 1) sf1 fs1).pauses =
          (List.range' i (rem + 1)).map pauseSec
        rw [if_pos hi, ih3, List.range'_succ, List.map_cons]
        rfl
      · show (syncLoop net retries false rem (i + 1) sf1 fs1).fs.final = fs.final
        rw [ih4, hfin]

/-- C6: against a backend whose every attempt fails with a non-404 error,
    `robust_get_sync` performs exactly the configured number of attempts
    (`HTTP_CONN_RETRIES ≥ 1`), pauses exactly `0.4 * 1.4 ** (i - 1)`
    seconds before each retry attempt `i ≥ 1`, and ends with the failure
    marker present and no leftover temp file. -/
theorem C6_retry_backoff (net : Net) (retries : Nat) (fs : FS) (hret : 0 < retries)
    (hnet : ∀ j rh, ∃ s, failStatus (net j rh) = some s ∧ s ≠ 404) :
    (robust_get_sync net retries false fs).success = false ∧
    (robust_get_sync net retries false fs).attempts = retries ∧
    (robust_get_sync net retries false fs).pauses =
      (List.range' 1 (retries - 1)).map pauseSec ∧
    (robust_get_sync net retries false fs).fs.marker = true ∧
    (robust_get_sync net retries false fs).fs.tmp = none := by
  obtain ⟨s, hs, h404⟩ := hnet 0 (rangeOf (-1) fs)
  obtain ⟨fs1, sf1, hdo, hfin, hmar⟩ := doAttempt_failed_of_failStatus net 0 (-1) fs s hs
  rcases retries with - | n
  · omega
  unfold robust_get_sync
  rcases n with - | m
  · simp only [syncLoop, hdo]
    rw [if_pos (Or.inr trivial)]
    exact ⟨rfl, rfl, rfl, rfl, rfl⟩
  · have hne : ¬(s = 404 ∨ (0 : Nat) = m + 1 + 1 - 1) := by
      rintro (h | h); exacts [h404 h, by omega]
    simp only [syncLoop, hdo]
    rw [if_neg (by simpa using hne)]
    obtain ⟨ih1, ih2, ih3, ih4, ih5, ih6⟩ :=
      syncLoop_all_fail net (m + 1 + 1) hnet (m + 1) 1 sf1 fs1 (by omega) (by omega) (by omega)
    refine ⟨ih1, ?_, ?_, ih6, ih5⟩
    · show (syncLoop net (m + 1 + 1) false (m + 1) 1 sf1 fs1).attempts + 1 = m + 1 + 1
      rw [ih2]
    · show (if 0 < (0 : Nat) then [pauseSec 0] else []) ++
          (syncLoop net (m + 1 + 1) false (m + 1) 1 sf1 fs1).pauses =
        (List.range' 1 (m + 1 + 1 - 1)).map pauseSec
      rw [ih3]
      rfl

/-- Witness for C6: a backend that never responds, three allowed attempts:
    three attempts happen, with pauses 0.4 s and 0.56 s before the two
    retries, ending in a cached failure with the temp file removed. -/
theorem C6_retry_backoff_w :
    (robust_get_sync (fun _ _ => .noResponse) 3 false ⟨none, some [], false⟩).success = false ∧
    (robust_get_sync (fun _ _ => .noResponse) 3 false ⟨none, some [], false⟩).attempts = 3 ∧
    (robust_get_sync (fun _ _ => .noResponse) 3 false ⟨none, some [], false⟩).pauses =
      (List.range' 1 2).map pauseSec ∧
    (robust_get_sync (fun _ _ => .noResponse) 3 false
      ⟨none, some [], false⟩).fs.marker = true ∧
    (robust_get_sync (fun _ _ => .noResponse) 3 false ⟨none, some [], false⟩).fs.tmp = none := by
  refine C6_retry_backoff _ 3 _ (by omega) ?_
  intro j rh
  exact ⟨-1, rfl, by decide⟩

/-- Helper: one sweep step accounts one file according to the claim-side
    predicates — bytes to `sizeUsed` when kept, bytes and name to the freed
    side when deleted, nothing when skipped. -/
theorem cleanStep_eq (indexDur fileDur now : Int) (acc : SweepResult) (f : CacheFile) :
    cleanStep indexDur fileDur now acc f =
      ⟨acc.sizeUsed + (if sweepKeeps indexDur fileDur now f = true then f.size else 0),
       acc.sizeSaved + (if sweepDeletes indexDur fileDur now f = true then f.size else 0),
       acc.removed ++ (if sweepDeletes indexDur fileDur now f = true then [f.name] else [])⟩ := by
  obtain ⟨u, v, w⟩ := acc
  unfold cleanStep sweepKeeps sweepDeletes sweepConsidered sweepDue
  cases hdir : f.isDir <;> cases htmp : f.name.endsWith tmpSuffix <;>
    cases hstat : f.statFails <;> cases hunl : f.unlinkFails <;>
    simp [hdir, htmp, hstat, hunl] <;> split_ifs <;> (try simp_all) <;> omega

/-- Helper: the whole sweep is the per-file accounting accumulated over the
    visit order. -/
theorem clean_cache_fold (indexDur fileDur now : Int) :
    ∀ (files : List CacheFile) (acc : SweepResult),
      files.foldl (cleanStep indexDur fileDur now) acc =
        ⟨acc.sizeUsed +
          ((files.filter (sweepKeeps indexDur fileDur now)).map CacheFile.size).sum,
         acc.sizeSaved +
          ((files.filter (sweepDeletes indexDur fileDur now)).map CacheFile.size).sum,
         acc.removed ++ (files.filter (sweepDeletes indexDur fileDur now)).map CacheFile.name⟩ := by
  intro files
  induction files with
  | nil => intro acc; simp
  | cons f fsx ih =>
    intro acc
    rw [List.foldl_cons, cleanStep_eq, ih]
    by_cases hk : sweepKeeps indexDur fileDur now f = true <;>
      by_cases hd : sweepDeletes indexDur fileDur now f = true <;>
      simp [List.filter_cons, hk, hd, SweepResult.mk.injEq, List.append_assoc] <;>
      omega

/-- C7: the sweep deletes exactly the visitable files (not directories, not
    `.tmp`, stat succeeded) that are due — `index.json` and `.404` files
    whose modification age strictly exceeds `CACHE_INDEX_DURATION`, every
    other file whose access age strictly exceeds `CACHE_FILE_DURATION` (so
    a content file modified long ago but accessed recently is not due and
    is retained) — and whose unlink succeeds; per-file stat/unlink errors
    skip only that file, the rest of the sweep proceeding; freed bytes are
    the sizes of the deleted files and retained bytes the sizes of the kept
    ones. -/
theorem C7_sweep (indexDur fileDur now : Int) (files : List CacheFile) :
    clean_cache indexDur fileDur now files =
      ⟨((files.filter (sweepKeeps indexDur fileDur now)).map CacheFile.size).sum,
       ((files.filter (sweepDeletes indexDur fileDur now)).map CacheFile.size).sum,
       (files.filter (sweepDeletes indexDur fileDur now)).map CacheFile.name⟩ := by
  unfold clean_cache
  rw [clean_cache_fold]
  simp

namespace Flight

/-- Helper: a list of length at most one that has an element at position
    `j` is the singleton of that element, and `j = 0`. -/
theorem length_le_one_get (l : List DlState) (j : Nat) (a : DlState)
    (h1 : l.length ≤ 1) (h2 : l[j]? = some a) : l = [a] ∧ j = 0 := by
  rcases l with - | ⟨x, - | ⟨y, t⟩⟩
  · simp at h2
  · rcases j with - | j
    · simp at h2
      exact ⟨by rw [h2], rfl⟩
    · simp at h2
  · simp at h1

/-- Helper: the safety invariant holds initially. -/
theorem inv_init (n : Nat) : Inv (initSys n) :=
  ⟨by simp [initSys], fun _ => ⟨rfl, fun pc hpc => List.eq_of_mem_replicate hpc⟩,
    fun hx => absurd rfl hx, fun st hst _ => absurd hst (List.not_mem_nil st)⟩

/-- Helper: every block-granularity step preserves the safety invariant. -/
theorem inv_step (dlFails : Nat → Bool) (s : Sys) (m : Move) (h : Inv s) :
    Inv (stepWith callerBlockStep dlFails s m) := by
  obtain ⟨h1, h2, h3, h4⟩ := h
  rcases m with i | j
  · rcases hc : s.callers[i]? with - | pc
    · simpa [stepWith, hc] using ⟨h1, h2, h3, h4⟩
    · have hmem : pc ∈ s.callers := List.getElem?_mem hc
      rcases pc with - | - | - | - | - | - | -
      case start =>
        rcases hdls : s.dls with - | ⟨d0, ds⟩
        · obtain ⟨hdisk, hall⟩ := h2 hdls
          have hs1 : stepWith callerBlockStep dlFails s (.caller i) =
              { disk := ⟨false, true, false⟩, callers := s.callers.set i .spawned,
                dls := [DlState.running] } := by
            simp [stepWith, hc, callerBlockStep, hdisk, hdls]
          rw [hs1]
          refine ⟨by simp, fun hx => absurd hx (by simp), fun _ => Or.inr (Or.inl rfl), ?_⟩
          intro st hst heq
          simp at hst
          subst hst
          exact absurd heq (by decide)
        · have hne : s.dls ≠ [] := by rw [hdls]; simp
          have hflag := h3 hne
          by_cases hm : s.disk.marker = true
          · have hs1 : stepWith callerBlockStep dlFails s (.caller i) =
                { disk := s.disk, callers := s.callers.set i .gotHit, dls := s.dls } := by
              simp [stepWith, hc, callerBlockStep, hm]
            rw [hs1]
            exact ⟨h1, fun hx => absurd hx hne, fun _ => hflag, h4⟩
          · by_cases hf : s.disk.final = true
            · have hs1 : stepWith callerBlockStep dlFails s (.caller i) =
                  { disk := s.disk, callers := s.callers.set i .gotHit, dls := s.dls } := by
                simp [stepWith, hc, callerBlockStep, hm, hf]
              rw [hs1]
              exact ⟨h1, fun hx => absurd hx hne, fun _ => hflag, h4⟩
            · have ht : s.disk.tmp = true := by
                rcases hflag with hx | hx | hx
                exacts [absurd hx hf, hx, absurd hx hm]
              have hs1 : stepWith callerBlockStep dlFails s (.caller i) =
                  { disk := s.disk, callers := s.callers.set i .waiting, dls := s.dls } := by
                simp [stepWith, hc, callerBlockStep, hm, hf, ht]
              rw [hs1]
              exact ⟨h1, fun hx => absurd hx hne, fun _ => hflag, h4⟩
      case after404Probe =>
        rcases hdls : s.dls with - | ⟨d0, ds⟩
        · obtain ⟨-, hall⟩ := h2 hdls
          exact absurd (hall _ hmem) (by decide)
        · have hne : s.dls ≠ [] := by rw [hdls]; simp
          have hs1 : stepWith callerBlockStep dlFails s (.caller i) =
              { disk := s.disk, callers := s.callers.set i .after404Probe,
                dls := s.dls } := by
            simp [stepWith, hc, callerBlockStep]
          rw [hs1]
          exact ⟨h1, fun hx => absurd hx hne, h3, h4⟩
      case afterFinalProbe =>
        rcases hdls : s.dls with - | ⟨d0, ds⟩
        · obtain ⟨-, hall⟩ := h2 hdls
          exact absurd (hall _ hmem) (by decide)
        · have hne : s.dls ≠ [] := by rw [hdls]; simp
          have hs1 : stepWith callerBlockStep dlFails s (.caller i) =
              { disk := s.disk, callers := s.callers.set i .afterFinalProbe,
                dls := s.dls } := by
            simp [stepWith, hc, callerBlockStep]
          rw [hs1]
          exact ⟨h1, fun hx => absurd hx hne, h3, h4⟩
      case waiting =>
        rcases hdls : s.dls with - | ⟨d0, ds⟩
        · obtain ⟨-, hall⟩ := h2 hdls
          exact absurd (hall _ hmem) (by decide)
        · have hne : s.dls ≠ [] := by rw [hdls]; simp
          by_cases ht : s.disk.tmp = true
          · have hs1 : stepWith callerBlockStep dlFails s (.caller i) =
                { disk := s.disk, callers := s.callers.set i .waiting, dls := s.dls } := by
              simp [stepWith, hc, callerBlockStep, ht]
            rw [hs1]
            exact ⟨h1, fun hx => absurd hx hne, h3, h4⟩
          · have hs1 : stepWith callerBlockStep dlFails s (.caller i) =
                { disk := s.disk, callers := s.callers.set i .endedWait, dls := s.dls } := by
              simp [stepWith, hc, callerBlockStep, ht]
            rw [hs1]
            exact ⟨h1, fun hx => absurd hx hne, h3, h4⟩
      case gotHit =>
        rcases hdls : s.dls with - | ⟨d0, ds⟩
        · obtain ⟨-, hall⟩ := h2 hdls
          exact absurd (hall _ hmem) (by decide)
        · have hne : s.dls ≠ [] := by rw [hdls]; simp
          have hs1 : stepWith callerBlockStep dlFails s (.caller i) =
              { disk := s.disk, callers := s.callers.set i .gotHit, dls := s.dls } := by
            simp [stepWith, hc, callerBlockStep]
          rw [hs1]
          exact ⟨h1, fun hx => absurd hx hne, h3, h4⟩
      case spawned =>
        rcases hdls : s.dls with - | ⟨d0, ds⟩
        · obtain ⟨-, hall⟩ := h2 hdls
          exact absurd (hall _ hmem) (by decide)
        · have hne : s.dls ≠ [] := by rw [hdls]; simp
          have hs1 : stepWith callerBlockStep dlFails s (.caller i) =
              { disk := s.disk, callers := s.callers.set i .spawned, dls := s.dls } := by
            simp [stepWith, hc, callerBlockStep]
          rw [hs1]
          exact ⟨h1, fun hx => absurd hx hne, h3, h4⟩
      case endedWait =>
        rcases hdls : s.dls with - | ⟨d0, ds⟩
        · obtain ⟨-, hall⟩ := h2 hdls
          exact absurd (hall _ hmem) (by decide)
        · have hne : s.dls ≠ [] := by rw [hdls]; simp
          have hs1 : stepWith callerBlockStep dlFails s (.caller i) =
              { disk := s.disk, callers := s.callers.set i .endedWait, dls := s.dls } := by
            simp [stepWith, hc, callerBlockStep]
          rw [hs1]
          exact ⟨h1, fun hx => absurd hx hne, h3, h4⟩
  · rcases hd : s.dls[j]? with - | st
    · simpa [stepWith, hd] using ⟨h1, h2, h3, h4⟩
    · obtain ⟨hsing, hj⟩ := length_le_one_get _ _ _ h1 hd
      subst hj
      rcases st with - | - | -
      case running =>
        by_cases hfate : dlFails 0 = true
        · have hs1 : stepWith callerBlockStep dlFails s (.dl 0) =
              { disk := { s.disk with marker := true }, callers := s.callers,
                dls := [DlState.wroteMarker] } := by
            simp [stepWith, hd, dlStep, hfate, hsing]
          rw [hs1]
          exact ⟨by simp, fun hx => absurd hx (by simp),
            fun _ => Or.inr (Or.inr rfl), fun _ _ _ => rfl⟩
        · have hs1 : stepWith callerBlockStep dlFails s (.dl 0) =
              { disk := { s.disk with final := true, tmp := false }, callers := s.callers,
                dls := [DlState.finished] } := by
            simp [stepWith, hd, dlStep, hfate, hsing]
          rw [hs1]
          refine ⟨by simp, fun hx => absurd hx (by simp), fun _ => Or.inl rfl, ?_⟩
          intro st hst heq
          simp at hst
          subst hst
          exact absurd heq (by decide)
      case wroteMarker =>
        have hmk : s.disk.marker = true := h4 _ (by rw [hsing]; simp) rfl
        have hs1 : stepWith callerBlockStep dlFails s (.dl 0) =
            { disk := { s.disk with tmp := false }, callers := s.callers,
              dls := [DlState.finished] } := by
          simp [stepWith, hd, dlStep, hsing]
        rw [hs1]
        refine ⟨by simp, fun hx => absurd hx (by simp),
          fun _ => Or.inr (Or.inr hmk), ?_⟩
        intro st hst heq
        simp at hst
        subst hst
        exact absurd heq (by decide)
      case finished =>
        have hne : s.dls ≠ [] := by rw [hsing]; simp
        have hs1 : stepWith callerBlockStep dlFails s (.dl 0) =
            { disk := s.disk, callers := s.callers, dls := [DlState.finished] } := by
          simp [stepWith, hd, dlStep, hsing]
        rw [hs1]
        refine ⟨by simp, fun hx => absurd hx (by simp), fun _ => h3 hne, ?_⟩
        intro st hst heq
        simp at hst
        subst hst
        exact absurd heq (by decide)

/-- Helper: the safety invariant holds after any block-granularity
    schedule. -/
theorem inv_run (dlFails : Nat → Bool) :
    ∀ (ms : List Move) (s : Sys), Inv s → Inv (runBlock dlFails s ms) := by
  intro ms
  induction ms with
  | nil => intro s h; exact h
  | cons m ms ih =>
    intro s h
    exact ih _ (inv_step dlFails s m h)

/-- C8 counterexample: at the true interleaving granularity of the program
    — each `isfile` probe of `robust_get` its own step, the downloader
    thread free to run between two probes — two concurrent `fetch` calls
    for the same absent resource can spawn TWO downloader invocations, not
    exactly one: caller 0 inspects and spawns; caller 1 probes the failure
    marker and the final file while the download is in flight; the
    downloader completes (atomic rename removes the placeholder); caller
    1's remaining placeholder probe then finds nothing and spawns a second
    download.  The same trace arises between two processes sharing the
    cache directory. -/
theorem C8_counterexample_duplicate :
    initSys 2 = ⟨⟨false, false, false⟩, [CallerPC.start, CallerPC.start], []⟩ ∧
    (runProbe (fun _ => false) (initSys 2) raceMoves).dls.length = 2 :=
  ⟨rfl, by decide⟩

/-- C8 amended: when each caller's inspect-and-create section runs without
    interleaving (as it does for callers multiplexed on one cooperative
    reactor, the section containing no await point), at most one downloader
    invocation ever occurs in any schedule, and as soon as any caller has
    run, exactly one has occurred — every other caller finds the
    placeholder, the final file or the marker and routes into the wait loop
    or a cache hit instead of starting a duplicate download.  Under finer
    interleaving (threads or separate processes) a second invocation is
    possible, as exhibited by the counterexample. -/
theorem C8_amended_single_flight (dlFails : Nat → Bool) (n : Nat) (ms : List Move) :
    (runBlock dlFails (initSys n) ms).dls.length ≤ 1 ∧
    ((∃ pc ∈ (runBlock dlFails (initSys n) ms).callers, pc ≠ CallerPC.start) →
      (runBlock dlFails (initSys n) ms).dls.length = 1) := by
  obtain ⟨h1, h2, h3, h4⟩ := inv_run dlFails ms (initSys n) (inv_init n)
  refine ⟨h1, ?_⟩
  rintro ⟨pc, hmem, hne⟩
  rcases hdls : (runBlock dlFails (initSys n) ms).dls with - | ⟨d, ds⟩
  · obtain ⟨-, hall⟩ := h2 hdls
    exact absurd (hall pc hmem) hne
  · rw [hdls] at h1
    simp at h1
    subst h1
    simp [hdls]

/-- Witness for C8 amended: two pending callers, one of which runs its
    blocking section — exactly one downloader exists. -/
theorem C8_amended_single_flight_w :
    (runBlock (fun _ => true) (initSys 2) [Move.caller 0]).dls.length = 1 :=
  (C8_amended_single_flight (fun _ => true) 2 [Move.caller 0]).2
    ⟨CallerPC.spawned, by decide, by decide⟩

end Flight

end RevProxy
